import Mathlib

/-!
Shallow embedding of `litex/build/lattice/trellis.py` (LiteX Lattice Trellis
toolchain): the constraint-file generator, device resolver, build-script
assembler and build driver, together with theorems settling the spec claims.

Python exceptions are embedded as `Except PyError`; a Python function that
returns normally is embedded as a total Lean function.  Python `float`s are
embedded as `ℚ` (the claims only involve exact small values).
-/

/-- The Python exception kinds raised by the code under study. -/
inductive PyError
  | valueError
  | keyError
  | indexError
  | typeError
  | osError
  | externalError
  deriving DecidableEq, Repr

/-- A constraint directive passed to `_format_constraint`.  `pins`,
`io_standard` and `misc` embed the `Pins`, `IOStandard` and `Misc` classes of
`litex.build.generic_platform` (which carry, respectively, an identifier list,
a standard name, and free-form text).  `other` stands for any Python object of
a different class reaching the formatter. -/
inductive Constraint
  | pins (identifiers : List String)
  | io_standard (name : String)
  | misc (text : String)
  | other
  deriving DecidableEq, Repr

/-- `_format_constraint` (trellis.py lines 44-50).  The Python function is an
`if/elif/elif` chain with no `else`: on `Pins`, `IOStandard` and `Misc` it
returns a `(prefix, suffix)` pair — reading `identifiers[0]`, which raises
`IndexError` when the identifier list is empty — and on any other object it
falls off the end and returns `None`.  The normal return of the `None` value
is embedded as `.ok none`, not as an exception. -/
def _format_constraint : Constraint → Except PyError (Option (String × String))
  | .pins [] => .error .indexError
  | .pins (i :: _) => .ok (some ("LOCATE COMP ", " SITE " ++ "\"" ++ i ++ "\""))
  | .io_standard name => .ok (some ("IOBUF PORT ", " IO_TYPE=" ++ name))
  | .misc text => .ok (some ("IOBUF PORT ", " " ++ text))
  | .other => .ok none

/-- The formatter returns normally on this directive (it does not raise). -/
def fmtOk (c : Constraint) : Bool :=
  match _format_constraint c with
  | .ok _ => true
  | .error _ => false

/-- The formatter returns an actual `(prefix, suffix)` pair on this
directive: it neither raises nor falls through to `None`. -/
def wellFormed (c : Constraint) : Bool :=
  match _format_constraint c with
  | .ok (some _) => true
  | _ => false

/-- The list comprehension of `_format_lpf`
(`[_format_constraint(c) for c in ...]`): all formatter calls run first, and
the first raising call aborts the whole comprehension. -/
def mapFmt : List Constraint → Except PyError (List (Option (String × String)))
  | [] => .ok []
  | c :: rest =>
      match _format_constraint c with
      | .error e => .error e
      | .ok v =>
          match mapFmt rest with
          | .error e => .error e
          | .ok vs => .ok (v :: vs)

/-- The loop body of `_format_lpf`: fold the formatted `(pre, suf)` pairs into
the accumulated string.  Unpacking `None` (an unrecognized directive's result)
raises `TypeError` in Python, embedded as `Except.error .typeError`. -/
def lpfLines (signame : String) : List (Option (String × String)) → Except PyError String
  | [] => .ok ""
  | none :: _ => .error .typeError
  | some (pre, suf) :: rest =>
      match lpfLines signame rest with
      | .error e => .error e
      | .ok r => .ok (pre ++ "\"" ++ signame ++ "\"" ++ suf ++ ";\n" ++ r)

/-- `_format_lpf` (trellis.py lines 53-58): format `[Pins(pin)] + others` and
concatenate `pre + "\"" + signame + "\"" + suf + ";\n"` for each pair.  The
`resname` parameter is accepted and never used, exactly as in the source. -/
def _format_lpf (signame pin : String) (others : List Constraint)
    (resname : String) : Except PyError String :=
  match mapFmt (Constraint.pins [pin] :: others) with
  | .error e => .error e
  | .ok fmt_c => lpfLines signame fmt_c

/-- One named signal constraint, the 4-tuple `(sig, pins, others, resname)`
iterated over by `_build_lpf`. -/
structure SigCon where
  sig : String
  pins : List String
  others : List Constraint
  resname : String
  deriving DecidableEq, Repr

/-- Concatenate a list of chunks, propagating the first raised exception:
the embedding of a Python loop that appends to an accumulator and can raise. -/
def lpfJoin : List (Except PyError String) → Except PyError String
  | [] => .ok ""
  | .error e :: _ => .error e
  | .ok s :: rest =>
      match lpfJoin rest with
      | .error e => .error e
      | .ok r => .ok (s ++ r)

/-- The per-signal chunk of `_build_lpf`'s loop (trellis.py lines 63-68): a
multi-bit signal (`len(pins) > 1`) expands to one `_format_lpf` block per pin
under the index-suffixed name; a scalar signal reads `pins[0]`, which raises
`IndexError` when `pins` is empty. -/
def signalLpf (sc : SigCon) : Except PyError String :=
  if sc.pins.length > 1 then
    lpfJoin (sc.pins.enum.map fun ip =>
      _format_lpf (sc.sig ++ "[" ++ toString ip.1 ++ "]") ip.2 sc.others sc.resname)
  else
    match sc.pins with
    | [] => .error .indexError
    | p :: _ => _format_lpf sc.sig p sc.others sc.resname

/-- Concatenate a list of strings in order. -/
def catList : List String → String
  | [] => ""
  | s :: rest => s ++ catList rest

/-- Python `sep.join(l)`. -/
def joinSep (sep : String) : List String → String
  | [] => ""
  | [x] => x
  | x :: y :: rest => x ++ sep ++ joinSep sep (y :: rest)

/-- `_build_lpf` (trellis.py lines 61-72): the two fixed `BLOCK` header lines,
then the per-signal constraint blocks in input order, then — when `named_pc`
is non-empty — a newline followed by the platform commands joined by blank
lines. -/
def _build_lpf (named_sc : List SigCon) (named_pc : List String) :
    Except PyError String :=
  match lpfJoin (named_sc.map signalLpf) with
  | .error e => .error e
  | .ok body =>
      .ok ("BLOCK RESETPATHS;\n" ++ "BLOCK ASYNCPATHS;\n" ++ body ++
        (if named_pc.isEmpty then "" else "\n" ++ joinSep "\n\n" named_pc))

/-- Is `n` a prefix of `h`?  (Character-list helper for Python's `in`.) -/
def preAux : List Char → List Char → Bool
  | [], _ => true
  | _ :: _, [] => false
  | a :: as, b :: bs => a == b && preAux as bs

/-- Is `n` a contiguous substring of `h`? -/
def subAux (n : List Char) : List Char → Bool
  | [] => preAux n []
  | b :: bs => preAux n (b :: bs) || subAux n bs

/-- Python's `needle in hay` on strings: contiguous substring containment. -/
def pyIn (needle hay : String) : Bool :=
  subAux needle.toList hay.toList

/-- The `nextpnr_ecp5_architectures` table (trellis.py lines 20-30). -/
def nextpnr_ecp5_architectures : List (String × String) :=
  [("lfe5u-25f", "25k"),
   ("lfe5u-45f", "45k"),
   ("lfe5u-85f", "85k"),
   ("lfe5um-25f", "um-25k"),
   ("lfe5um-45f", "um-45k"),
   ("lfe5um-85f", "um-85k"),
   ("lfe5um5g-25f", "um5g-25k"),
   ("lfe5um5g-45f", "um5g-45k"),
   ("lfe5um5g-85f", "um5g-85k")]

/-- `nextpnr_ecp5_package` (trellis.py lines 32-41): ordered substring match
of the package-size markers; `ValueError("Unknown package")` when none
matches. -/
def nextpnr_ecp5_package (package : String) : Except PyError String :=
  if pyIn "285" package then .ok "CSFBGA285"
  else if pyIn "381" package then .ok "CABGA381"
  else if pyIn "554" package then .ok "CABGA554"
  else if pyIn "756" package then .ok "CABGA756"
  else .error .valueError

/-- Split a character list on every occurrence of the separator `c`
(the embedding of Python's `str.split` with an explicit separator). -/
def splitOnChar (c : Char) : List Char → List (List Char)
  | [] => [[]]
  | a :: rest =>
      let r := splitOnChar c rest
      if a == c then [] :: r
      else
        match r with
        | [] => [[a]]
        | h :: t => (a :: h) :: t

/-- Python `s.split(sep)` for a one-character separator. -/
def pySplit (s : String) (c : Char) : List String :=
  (splitOnChar c s.toList).map List.asString

/-- Python `s.lower()`: lowercase every character. -/
def pyLower (s : String) : String :=
  (s.toList.map Char.toLower).asString

/-- The architecture lookup performed by `build` (trellis.py line 188):
`nextpnr_ecp5_architectures[(family + "-" + size).lower()]`. -/
def archLookup (family size : String) : Option String :=
  nextpnr_ecp5_architectures.lookup (pyLower (family ++ "-" ++ size))

/-- The device-resolution steps of `build` (trellis.py lines 187-189):
`platform.device.split("-")` destructured into exactly three names (a
`ValueError` otherwise), the case-insensitive architecture table lookup (a
`KeyError` when absent), then `nextpnr_ecp5_package`. -/
def deviceResolve (device : String) : Except PyError (String × String) :=
  match pySplit device '-' with
  | [family, size, package] =>
      match archLookup family size with
      | none => .error .keyError
      | some arch =>
          match nextpnr_ecp5_package package with
          | .error e => .error e
          | .ok pkg => .ok (arch, pkg)
  | _ => .error .valueError

/-- One item of a command template: a literal piece of text or one of the
named placeholders that `_build_script` substitutes via `str.format`
(trellis.py lines 87-93).  A Python format string is exactly such an
alternation of literals and fields. -/
inductive TmplItem
  | lit (s : String)
  | build_name
  | architecture
  | package
  | freq_constraint
  | timefailarg
  | fail_stmt
  deriving DecidableEq, Repr

/-- The per-build parameter set handed to `_build_script`. -/
structure ScriptParams where
  build_name : String
  architecture : String
  package : String
  freq_constraint : String
  timingstrict : Bool
  deriving DecidableEq, Repr

/-- The text one template item renders to (trellis.py lines 88-93):
`timefailarg` is `--timing-allow-fail` exactly when `timingstrict` is false,
and `fail_stmt` is the dialect's sentinel. -/
def itemText (p : ScriptParams) (failStmt : String) : TmplItem → String
  | .lit s => s
  | .build_name => p.build_name
  | .architecture => p.architecture
  | .package => p.package
  | .freq_constraint => p.freq_constraint
  | .timefailarg => if p.timingstrict then "" else "--timing-allow-fail"
  | .fail_stmt => failStmt

/-- `s.format(...)` on one template: substitute every item and concatenate. -/
def renderTmpl (p : ScriptParams) (failStmt : String) (t : List TmplItem) : String :=
  catList (t.map (itemText p failStmt))

/-- `sys.platform in ("win32", "cygwin")` (trellis.py lines 77, 102). -/
def isWinPlatform (sysPlatform : String) : Bool :=
  sysPlatform == "win32" || sysPlatform == "cygwin"

/-- The dialect's fail sentinel chosen by `_build_script` (trellis.py lines
80, 85): `" || exit /b"` for the batch dialect, the empty string for the
POSIX dialect. -/
def failSentinel (sysPlatform : String) : String :=
  if isWinPlatform sysPlatform then " || exit /b" else ""

/-- The initial `build_script_contents` of `_build_script` (trellis.py lines
78-84).  `gitRevision` stands for the external
`tools.get_litex_git_revision()`. -/
def scriptHeader (sysPlatform gitRevision : String) : String :=
  if isWinPlatform sysPlatform then
    "@echo off\nrem Autogenerated by LiteX / git: " ++ gitRevision ++ "\n\n"
  else
    "# Autogenerated by LiteX / git: " ++ gitRevision ++ "\nset -e\n"

/-- `_build_script` (trellis.py lines 75-98), returning the script file name
and its contents.  Each template gets `"{fail_stmt}\n"` appended
(`s_fail = s + "{fail_stmt}\n"`) and is then rendered; the chunks accumulate
onto the header in template order; the file name is
`"build_" + build_name + script_ext`.  The actual writing to disk is the
build driver's `writes` trace. -/
def _build_script (sysPlatform gitRevision : String)
    (build_template : List (List TmplItem)) (p : ScriptParams) :
    String × String :=
  let script_ext := if isWinPlatform sysPlatform then ".bat" else ".sh"
  let contents := build_template.foldl
    (fun acc s =>
      acc ++ renderTmpl p (failSentinel sysPlatform)
        (s ++ [TmplItem.fail_stmt, TmplItem.lit "\n"]))
    (scriptHeader sysPlatform gitRevision)
  ("build_" ++ p.build_name ++ script_ext, contents)

/-- The three-stage `build_template` set in `__init__` (trellis.py lines
143-147), tokenized into literals and placeholders. -/
def defaultBuildTemplate : List (List TmplItem) :=
  [[TmplItem.lit "yosys -q -l ", TmplItem.build_name, TmplItem.lit ".rpt ",
    TmplItem.build_name, TmplItem.lit ".ys"],
   [TmplItem.lit "nextpnr-ecp5 --json ", TmplItem.build_name,
    TmplItem.lit ".json --lpf ", TmplItem.build_name,
    TmplItem.lit ".lpf --textcfg ", TmplItem.build_name,
    TmplItem.lit ".config --", TmplItem.architecture,
    TmplItem.lit " --package ", TmplItem.package,
    TmplItem.lit " --freq ", TmplItem.freq_constraint,
    TmplItem.lit " ", TmplItem.timefailarg],
   [TmplItem.lit "ecppack ", TmplItem.build_name, TmplItem.lit ".config --svf ",
    TmplItem.build_name, TmplItem.lit ".svf --bit ", TmplItem.build_name,
    TmplItem.lit ".bit"]]

/-- The per-instance state of `LatticeTrellisToolchain`: the `build_template`
list and the `freq_constraints` dict (an association list keyed by signal
name) set up in `__init__` (trellis.py lines 135-149).  The `yosys_template`
only shapes the synthesis-script text, which the driver model leaves
abstract. -/
structure LatticeTrellisToolchain where
  build_template : List (List TmplItem)
  freq_constraints : List (String × ℚ)

/-- `LatticeTrellisToolchain.__init__` (trellis.py lines 135-149):
`self.freq_constraints = dict()`. -/
def LatticeTrellisToolchain.init : LatticeTrellisToolchain :=
  ⟨defaultBuildTemplate, []⟩

/-- `max(self.freq_constraints.values(), default=0.0)` (trellis.py lines
190-191): Python's `max` with a `default` for the empty case. -/
def pyMax : List ℚ → ℚ → ℚ
  | [], d => d
  | v :: vs, _ => vs.foldl max v

/-- The frequency constraint `build` computes at trellis.py lines 190-191
(before `str(...)`). -/
def buildFreqConstraint (tc : LatticeTrellisToolchain) : ℚ :=
  pyMax (tc.freq_constraints.map Prod.snd) 0

/-- `add_period_constraint` (trellis.py lines 205-209): it calls
`platform.add_platform_command` with the template
`FREQUENCY PORT "{clk}" {freq} MHz;` in which only `freq` is substituted
(with `str(float(1/period)*1000)`) while `{clk}` is re-inserted literally,
passing the signal as the `clk` keyword.  The platform-command registry is
modelled as a list of (command template, clk argument) pairs; the toolchain
state itself is returned unchanged — the function never touches
`self.freq_constraints`. -/
def LatticeTrellisToolchain.add_period_constraint
    (tc : LatticeTrellisToolchain) (platformCmds : List (String × String))
    (clk : String) (period : ℚ) :
    LatticeTrellisToolchain × List (String × String) :=
  (tc, platformCmds ++
    [("FREQUENCY PORT \"{clk}\" " ++ toString (1 / period * 1000) ++ " MHz;", clk)])

/-- Apply a sequence of `add_period_constraint` calls (signal, period) to a
toolchain and platform-command registry. -/
def applyCalls :
    LatticeTrellisToolchain × List (String × String) →
    List (String × ℚ) → LatticeTrellisToolchain × List (String × String)
  | s, [] => s
  | (tc, pf), (clk, period) :: rest =>
      applyCalls (tc.add_period_constraint pf clk period) rest

/-- The frequency constraint a `build` on a fresh toolchain uses after the
given `add_period_constraint` call sequence. -/
def buildFreqAfter (calls : List (String × ℚ)) : ℚ :=
  buildFreqConstraint (applyCalls (LatticeTrellisToolchain.init, []) calls).1

/-- Keep, for each signal name, only its last registered entry (last write
wins), preserving the relative order of the surviving entries. -/
def lastWins : List (String × ℚ) → List (String × ℚ)
  | [] => []
  | (k, v) :: rest =>
      if rest.any (fun p => p.1 == k) then lastWins rest
      else (k, v) :: lastWins rest

/-- Modelled from the spec: the frequency-constraint computation claim C2
describes — the maximum, over all registered signals with last-write-wins per
signal, of the per-clock frequency values `1/period * 1000`, and `0.0` when
none were registered (`litex.build.generic_platform`'s command registry and
the spec's §4.5 registration semantics are outside `src/`; this definition
follows the spec's words for comparison with the code's computation). -/
def specFrequencyConstraint (calls : List (String × ℚ)) : ℚ :=
  pyMax ((lastWins calls).map fun c => 1 / c.2 * 1000) 0

/-- Does the path start with `/`?  (`os.getcwd()` always returns such a
path.) -/
def isAbsPath (s : String) : Bool :=
  match s.toList with
  | '/' :: _ => true
  | _ => false

/-- `os.chdir(target)` from current directory `cur`: an absolute target
replaces the current directory, a relative one is resolved under it. -/
def chdir (cur target : String) : String :=
  if isAbsPath target then target else cur ++ "/" ++ target

/-- The inputs of one `LatticeTrellisToolchain.build` invocation (trellis.py
lines 153-203).  External collaborators are represented by their observable
effect at the build's interface: `named_sc`/`named_pc` are what
`platform.resolve_signals` returns, `verilogFails` says whether the
netlist-emission steps (finalize / get_verilog / resolve_signals / write)
raise, `scriptExit` is the exit status `subprocess.call` reports in
`_run_script`, and `gitRevision` is `tools.get_litex_git_revision()`. -/
structure BuildInput where
  entryCwd : String
  buildDir : String
  device : String
  build_name : String
  named_sc : List SigCon
  named_pc : List String
  run : Bool
  timingstrict : Bool
  verilogFails : Bool
  scriptExit : Int
  sysPlatform : String
  gitRevision : String

/-- The observable result of one `build` invocation: the outcome (normal
return of the signal namespace, or the raised exception), the process working
directory at exit, and the file names written, in order. -/
structure BuildResult where
  outcome : Except PyError Unit
  finalCwd : String
  writes : List String

/-- `LatticeTrellisToolchain.build` (trellis.py lines 153-203), embedded as a
state-passing driver over the working directory and the write trace.  The
source saves `cwd = os.getcwd()`, does `os.chdir(build_dir)`, runs the steps,
and only on the success path reaches `os.chdir(cwd)`: there is no
`try/finally`, so a raise anywhere between the two `chdir` calls propagates
with the process still in the build directory.  Step order: netlist emission
(writes `build_name + ".v"`), `_build_lpf` then the `.lpf` write, the `.ys`
write, device resolution, `_build_script` (writes the script file), and —
when `run` — `_run_script`, which raises `OSError` on a non-zero exit
status. -/
def LatticeTrellisToolchain.build (tc : LatticeTrellisToolchain)
    (inp : BuildInput) : BuildResult :=
  let cwd := inp.entryCwd
  let wd := chdir cwd inp.buildDir
  if inp.verilogFails then ⟨.error .externalError, wd, []⟩
  else
    let writes1 := [inp.build_name ++ ".v"]
    match _build_lpf inp.named_sc inp.named_pc with
    | .error e => ⟨.error e, wd, writes1⟩
    | .ok _ =>
        let writes2 := writes1 ++ [inp.build_name ++ ".lpf", inp.build_name ++ ".ys"]
        match deviceResolve inp.device with
        | .error e => ⟨.error e, wd, writes2⟩
        | .ok ap =>
            let script := _build_script inp.sysPlatform inp.gitRevision
              tc.build_template
              ⟨inp.build_name, ap.1, ap.2, toString (buildFreqConstraint tc),
               inp.timingstrict⟩
            let writes3 := writes2 ++ [script.1]
            if inp.run && inp.scriptExit != 0 then ⟨.error .osError, wd, writes3⟩
            else ⟨.ok (), chdir wd cwd, writes3⟩

/-- The `(prefix, suffix)` pair the formatter yields on a directive it
formats successfully (`("", "")` on the raising and fall-through cases, which
the lemmas using this function exclude by hypothesis). -/
def fmtPair (c : Constraint) : String × String :=
  match _format_constraint c with
  | .ok (some pr) => pr
  | _ => ("", "")

/-- The value of one entry of `_format_lpf`'s comprehension on a
non-raising directive. -/
def fmtVal (c : Constraint) : Option (String × String) :=
  match _format_constraint c with
  | .ok v => v
  | .error _ => none

/-- One constraint-file clause for the signal `name` as rendered from a
well-formed directive: `prefix "name" suffix;`. -/
def claimClause (name : String) (c : Constraint) : String :=
  (fmtPair c).1 ++ "\"" ++ name ++ "\"" ++ (fmtPair c).2 ++ ";\n"

/-- The `LOCATE` clause `LOCATE COMP "name" SITE "pin";` of the spec's
constraint-file interface. -/
def locateClause (name pin : String) : String :=
  "LOCATE COMP \"" ++ name ++ "\" SITE \"" ++ pin ++ "\";\n"

/-- The sub-constraint block claim C7 describes for one (sub-)signal:
exactly one `LOCATE` clause for the block's pin, followed by one clause per
extra directive, in input order. -/
def claimSubConstraint (name pin : String) (others : List Constraint) : String :=
  locateClause name pin ++ catList (others.map (claimClause name))

/-- A named signal constraint without its `resname` field. -/
def dropRes (sc : SigCon) : String × List String × List Constraint :=
  (sc.sig, sc.pins, sc.others)

/-! ## Helper lemmas about the constraint-file builder -/

theorem wellFormed_fmt (c : Constraint) (h : wellFormed c = true) :
    _format_constraint c = .ok (some (fmtPair c)) := by
  cases c with
  | pins l =>
      cases l with
      | nil => simp [wellFormed, _format_constraint] at h
      | cons i rest => rfl
  | io_standard n => rfl
  | misc t => rfl
  | other => simp [wellFormed, _format_constraint] at h

theorem mapFmt_wf (l : List Constraint) (h : ∀ c ∈ l, wellFormed c = true) :
    mapFmt l = .ok (l.map fun c => some (fmtPair c)) := by
  induction l with
  | nil => rfl
  | cons c rest ih =>
      have hc := wellFormed_fmt c (h c (List.mem_cons_self c rest))
      have hr := ih fun x hx => h x (List.mem_cons_of_mem c hx)
      simp [mapFmt, hc, hr]

theorem lpfLines_cons_some (n : String) (pr : String × String)
    (l : List (Option (String × String))) :
    lpfLines n (some pr :: l) =
      match lpfLines n l with
      | .error e => .error e
      | .ok r => .ok (pr.1 ++ "\"" ++ n ++ "\"" ++ pr.2 ++ ";\n" ++ r) := by
  cases pr with
  | mk a b => rfl

theorem lpfLines_fmt (n : String) (l : List Constraint) :
    lpfLines n (l.map fun c => some (fmtPair c)) =
      .ok (catList (l.map (claimClause n))) := by
  induction l with
  | nil => rfl
  | cons c rest ih =>
      rw [List.map_cons, lpfLines_cons_some, ih]
      simp [claimClause, catList, String.append_assoc]

theorem claimClause_pins (n p : String) :
    claimClause n (Constraint.pins [p]) = locateClause n p := by
  apply String.ext
  simp [claimClause, locateClause, fmtPair, _format_constraint, String.data_append]

theorem formatLpf_wf (n p r : String) (others : List Constraint)
    (h : ∀ c ∈ others, wellFormed c = true) :
    _format_lpf n p others r = .ok (claimSubConstraint n p others) := by
  have hall : ∀ c ∈ Constraint.pins [p] :: others, wellFormed c = true := by
    intro c hc
    rcases List.mem_cons.mp hc with h1 | h2
    · subst h1; rfl
    · exact h _ h2
  have hm := mapFmt_wf _ hall
  have hl := lpfLines_fmt n (Constraint.pins [p] :: others)
  simp only [_format_lpf, hm, hl]
  simp [claimSubConstraint, catList, claimClause_pins]

theorem lpfJoin_ok {α : Type} (l : List α) (f : α → Except PyError String)
    (g : α → String) (h : ∀ x ∈ l, f x = .ok (g x)) :
    lpfJoin (l.map f) = .ok (catList (l.map g)) := by
  induction l with
  | nil => rfl
  | cons a rest ih =>
      have ha := h a (List.mem_cons_self a rest)
      have hr := ih fun x hx => h x (List.mem_cons_of_mem a hx)
      simp [lpfJoin, ha, hr, catList]

theorem signalLpf_multi (sc : SigCon) (h1 : 1 < sc.pins.length)
    (h2 : ∀ c ∈ sc.others, wellFormed c = true) :
    signalLpf sc = .ok (catList (sc.pins.enum.map fun ip =>
      claimSubConstraint (sc.sig ++ "[" ++ toString ip.1 ++ "]") ip.2 sc.others)) := by
  have hj := lpfJoin_ok sc.pins.enum
    (fun ip => _format_lpf (sc.sig ++ "[" ++ toString ip.1 ++ "]") ip.2
      sc.others sc.resname)
    (fun ip => claimSubConstraint (sc.sig ++ "[" ++ toString ip.1 ++ "]") ip.2
      sc.others)
    (fun ip _ => formatLpf_wf _ ip.2 sc.resname sc.others h2)
  simp [signalLpf, h1, hj]

theorem signalLpf_scalar (sc : SigCon) (p : String) (hp : sc.pins = [p]) :
    signalLpf sc = _format_lpf sc.sig p sc.others sc.resname := by
  simp [signalLpf, hp]

theorem signalLpf_nil (sc : SigCon) (hp : sc.pins = []) :
    signalLpf sc = .error .indexError := by
  simp [signalLpf, hp]

theorem signalLpf_isOk (sc : SigCon) (hp : sc.pins ≠ [])
    (h2 : ∀ c ∈ sc.others, wellFormed c = true) :
    ∃ s, signalLpf sc = .ok s := by
  by_cases hl : 1 < sc.pins.length
  · exact ⟨_, signalLpf_multi sc hl h2⟩
  · cases hpins : sc.pins with
    | nil => exact absurd hpins hp
    | cons p rest =>
        cases rest with
        | nil =>
            exact ⟨_, by
              rw [signalLpf_scalar sc p hpins]
              exact formatLpf_wf sc.sig p sc.resname sc.others h2⟩
        | cons q r2 =>
            exfalso
            apply hl
            simp [hpins]

theorem lpfJoin_sig_ok (l : List SigCon)
    (h : ∀ sc ∈ l, sc.pins ≠ [] ∧ ∀ c ∈ sc.others, wellFormed c = true) :
    ∃ s, lpfJoin (l.map signalLpf) = .ok s := by
  induction l with
  | nil => exact ⟨"", rfl⟩
  | cons a rest ih =>
      obtain ⟨s, hs⟩ := signalLpf_isOk a (h a (List.mem_cons_self a rest)).1
        (h a (List.mem_cons_self a rest)).2
      obtain ⟨r, hr⟩ := ih fun x hx => h x (List.mem_cons_of_mem a hx)
      exact ⟨s ++ r, by simp [lpfJoin, hs, hr]⟩

theorem buildLpf_ok (named_sc : List SigCon) (named_pc : List String)
    (h : ∀ sc ∈ named_sc, sc.pins ≠ [] ∧ ∀ c ∈ sc.others, wellFormed c = true) :
    ∃ s, _build_lpf named_sc named_pc = .ok s := by
  obtain ⟨s, hs⟩ := lpfJoin_sig_ok named_sc h
  refine ⟨"BLOCK RESETPATHS;\n" ++ "BLOCK ASYNCPATHS;\n" ++ s ++
    (if named_pc.isEmpty then "" else "\n" ++ joinSep "\n\n" named_pc), ?_⟩
  unfold _build_lpf
  rw [hs]

theorem lpfJoin_empty_pins (l : List SigCon)
    (hwf : ∀ sc ∈ l, ∀ c ∈ sc.others, wellFormed c = true)
    (he : ∃ sc ∈ l, sc.pins = []) :
    lpfJoin (l.map signalLpf) = .error .indexError := by
  induction l with
  | nil => obtain ⟨sc, hmem, _⟩ := he; exact absurd hmem (List.not_mem_nil sc)
  | cons a rest ih =>
      by_cases hpa : a.pins = []
      · simp [lpfJoin, signalLpf_nil a hpa]
      · obtain ⟨s, hs⟩ := signalLpf_isOk a hpa (hwf a (List.mem_cons_self a rest))
        have hrest : ∃ sc ∈ rest, sc.pins = [] := by
          obtain ⟨sc, hmem, hsc⟩ := he
          rcases List.mem_cons.mp hmem with h1 | h2
          · subst h1; exact absurd hsc hpa
          · exact ⟨sc, h2, hsc⟩
        have hr := ih (fun x hx => hwf x (List.mem_cons_of_mem a hx)) hrest
        simp [lpfJoin, hs, hr]

theorem mapFmt_fmtOk (l : List Constraint) (h : ∀ c ∈ l, fmtOk c = true) :
    mapFmt l = .ok (l.map fmtVal) := by
  induction l with
  | nil => rfl
  | cons c rest ih =>
      have hc := h c (List.mem_cons_self c rest)
      have hr := ih fun x hx => h x (List.mem_cons_of_mem c hx)
      cases hfc : _format_constraint c with
      | error e => simp [fmtOk, hfc] at hc
      | ok v => simp [mapFmt, hfc, hr, fmtVal]

theorem lpfLines_mem_none (n : String) (l : List (Option (String × String)))
    (h : none ∈ l) :
    lpfLines n l = .error .typeError := by
  induction l with
  | nil => exact absurd h (List.not_mem_nil none)
  | cons a rest ih =>
      cases a with
      | none => rfl
      | some pr =>
          have hrest : none ∈ rest := by
            rcases List.mem_cons.mp h with h1 | h2
            · exact absurd h1.symm (Option.some_ne_none pr)
            · exact h2
          rw [lpfLines_cons_some, ih hrest]

theorem signalLpf_resname (a b : SigCon) (h : dropRes a = dropRes b) :
    signalLpf a = signalLpf b := by
  cases a with
  | mk s1 p1 o1 r1 =>
      cases b with
      | mk s2 p2 o2 r2 =>
          simp [dropRes] at h
          obtain ⟨hs, hp, ho⟩ := h
          subst hs; subst hp; subst ho
          simp [signalLpf, _format_lpf]

/-! ## Claim theorems -/

/-- C4, the claim as stated is false: the claim says an unrecognized
directive variant makes the formatter raise the internal-programming-error
condition ("the formatter matches the variants exhaustively").  In the code,
`_format_constraint` is an `if/elif/elif` chain with no `else`: on an
unrecognized variant it falls off the end and RETURNS the `None` value
normally (embedded as `.ok none`, a normal return, not an exception).  The
concrete input `Constraint.other` exhibits the silent fallthrough. -/
theorem C4_fallthrough_counterexample :
    _format_constraint Constraint.other = .ok none := rfl

/-- C4 (amended): an unrecognized directive variant is not matched by
`_format_constraint`, which silently returns `None`; the error is surfaced
only downstream, when `_format_lpf` unpacks that `None` and raises
`TypeError`, so no constraint text is produced.  Stated for every directive
list that contains an unrecognized variant (and on which the formatter
itself does not raise earlier through an empty `Pins` identifier list). -/
theorem C4_unrecognized_type_error (signame pin : String)
    (others : List Constraint) (resname : String)
    (hok : ∀ c ∈ others, fmtOk c = true)
    (hbad : ∃ c ∈ others, _format_constraint c = .ok none) :
    _format_lpf signame pin others resname = .error .typeError := by
  have hall : ∀ c ∈ Constraint.pins [pin] :: others, fmtOk c = true := by
    intro c hc
    rcases List.mem_cons.mp hc with h1 | h2
    · subst h1; rfl
    · exact hok _ h2
  have hm := mapFmt_fmtOk _ hall
  have hnone : none ∈ (Constraint.pins [pin] :: others).map fmtVal := by
    obtain ⟨c, hmem, hc⟩ := hbad
    have : fmtVal c = none := by simp [fmtVal, hc]
    exact this ▸ List.mem_map_of_mem fmtVal (List.mem_cons_of_mem _ hmem)
  have hl := lpfLines_mem_none signame _ hnone
  simp only [_format_lpf, hm]
  exact hl

/-- C4 witness: a directive list containing the unrecognized variant makes
`_format_lpf` fail with `TypeError`. -/
theorem C4_unrecognized_type_error_witness :
    _format_lpf "sig" "A1" [Constraint.other] "r" = .error .typeError :=
  C4_unrecognized_type_error "sig" "A1" [Constraint.other] "r"
    (by decide) ⟨Constraint.other, List.mem_cons_self _ _, rfl⟩

/-- C5: device resolution.  (1) The end-to-end example:
`"lfe5u-25f-csfbga285"` resolves to architecture `"25k"` and package
`"CSFBGA285"`.  (2)-(5) The package part is classified by substring match
against `"285"`, `"381"`, `"554"`, `"756"` in that order.  (6) No marker
matching raises the unknown-package `ValueError`.  (7) The family+size
lookup is case-insensitive: two inputs equal after lowercasing resolve
identically. -/
theorem C5_device_resolution :
    deviceResolve "lfe5u-25f-csfbga285" = .ok ("25k", "CSFBGA285")
    ∧ (∀ p, pyIn "285" p = true → nextpnr_ecp5_package p = .ok "CSFBGA285")
    ∧ (∀ p, pyIn "285" p = false → pyIn "381" p = true →
        nextpnr_ecp5_package p = .ok "CABGA381")
    ∧ (∀ p, pyIn "285" p = false → pyIn "381" p = false → pyIn "554" p = true →
        nextpnr_ecp5_package p = .ok "CABGA554")
    ∧ (∀ p, pyIn "285" p = false → pyIn "381" p = false → pyIn "554" p = false →
        pyIn "756" p = true → nextpnr_ecp5_package p = .ok "CABGA756")
    ∧ (∀ p, pyIn "285" p = false → pyIn "381" p = false → pyIn "554" p = false →
        pyIn "756" p = false → nextpnr_ecp5_package p = .error .valueError)
    ∧ (∀ f s f2 s2, pyLower (f ++ "-" ++ s) = pyLower (f2 ++ "-" ++ s2) →
        archLookup f s = archLookup f2 s2) := by
  refine ⟨rfl, ?_, ?_, ?_, ?_, ?_, ?_⟩
  · intro p h1; simp [nextpnr_ecp5_package, h1]
  · intro p h1 h2; simp [nextpnr_ecp5_package, h1, h2]
  · intro p h1 h2 h3; simp [nextpnr_ecp5_package, h1, h2, h3]
  · intro p h1 h2 h3 h4; simp [nextpnr_ecp5_package, h1, h2, h3, h4]
  · intro p h1 h2 h3 h4; simp [nextpnr_ecp5_package, h1, h2, h3, h4]
  · intro f s f2 s2 h; unfold archLookup; rw [h]

/-- C5 witness: the ordered-match conjuncts and case-insensitivity applied
at concrete inputs. -/
theorem C5_device_resolution_witness :
    nextpnr_ecp5_package "xyz381" = .ok "CABGA381"
    ∧ nextpnr_ecp5_package "xyz999" = .error .valueError
    ∧ archLookup "LFE5UM5G" "85F" = archLookup "lfe5um5g" "85f" := by
  obtain ⟨h1, h2, h3, h4, h5, h6, h7⟩ := C5_device_resolution
  exact ⟨h3 "xyz381" (by decide) (by decide),
         h6 "xyz999" (by decide) (by decide) (by decide) (by decide),
         h7 "LFE5UM5G" "85F" "lfe5um5g" "85f" (by decide)⟩

/-- C6: for the single scalar signal `"clk"` with pin `"A1"`, the extra
I/O-standard directive `"LVCMOS33"`, and no platform commands, `_build_lpf`
returns exactly the claimed constraint file. -/
theorem C6_scalar_clk_constraint_file :
    _build_lpf [⟨"clk", ["A1"], [Constraint.io_standard "LVCMOS33"], "res"⟩] [] =
      .ok "BLOCK RESETPATHS;\nBLOCK ASYNCPATHS;\nLOCATE COMP \"clk\" SITE \"A1\";\nIOBUF PORT \"clk\" IO_TYPE=LVCMOS33;\n" := by
  rfl

/-- C7: for a signal with more than one pin and any list of well-formed
extra directives, the builder emits exactly one sub-constraint block per pin,
named `sig[0]`, `sig[1]`, ... in ascending index order (`List.enum` pairs
index `i` with pin `i`), each block being one `LOCATE` clause for the
block's pin followed by one clause per extra directive in input order
(`claimSubConstraint`). -/
theorem C7_multibit_expansion (sig : String) (pins : List String)
    (others : List Constraint) (res : String)
    (h1 : 1 < pins.length)
    (h2 : ∀ c ∈ others, wellFormed c = true) :
    _build_lpf [⟨sig, pins, others, res⟩] [] =
      .ok ("BLOCK RESETPATHS;\n" ++ "BLOCK ASYNCPATHS;\n" ++
        catList (pins.enum.map fun ip =>
          claimSubConstraint (sig ++ "[" ++ toString ip.1 ++ "]") ip.2 others)) := by
  have hs := signalLpf_multi ⟨sig, pins, others, res⟩ h1 h2
  simp only [_build_lpf, List.map_cons, List.map_nil, lpfJoin, hs]
  simp [String.append_assoc]

/-- C7 witness: a two-pin signal expands to the blocks `d[0]` and `d[1]`. -/
theorem C7_multibit_expansion_witness :
    _build_lpf [⟨"d", ["P1", "P2"], [Constraint.io_standard "X"], "r"⟩] [] =
      .ok ("BLOCK RESETPATHS;\n" ++ "BLOCK ASYNCPATHS;\n" ++
        catList ((["P1", "P2"] : List String).enum.map fun ip =>
          claimSubConstraint ("d" ++ "[" ++ toString ip.1 ++ "]") ip.2
            [Constraint.io_standard "X"])) :=
  C7_multibit_expansion "d" ["P1", "P2"] [Constraint.io_standard "X"] "r"
    (by decide) (by decide)

/-- C9: the constraint file is independent of every `resname` field — two
signal-constraint lists equal after erasing `resname` produce identical
builder output. -/
theorem C9_resname_noninterference (sc1 sc2 : List SigCon) (pc : List String)
    (h : sc1.map dropRes = sc2.map dropRes) :
    _build_lpf sc1 pc = _build_lpf sc2 pc := by
  have hmap : sc1.map signalLpf = sc2.map signalLpf := by
    induction sc1 generalizing sc2 with
    | nil =>
        cases sc2 with
        | nil => rfl
        | cons b bs => simp at h
    | cons a as ih =>
        cases sc2 with
        | nil => simp at h
        | cons b bs =>
            simp only [List.map_cons, List.cons.injEq] at h
            simp only [List.map_cons, List.cons.injEq]
            exact ⟨signalLpf_resname a b h.1, ih bs h.2⟩
  simp [_build_lpf, hmap]

/-- C9 witness: two concrete inputs differing only in `resname` give equal
output. -/
theorem C9_resname_noninterference_witness :
    _build_lpf [⟨"clk", ["A1"], [], "resourceA"⟩] ["CMD"] =
      _build_lpf [⟨"clk", ["A1"], [], "resourceB"⟩] ["CMD"] :=
  C9_resname_noninterference [⟨"clk", ["A1"], [], "resourceA"⟩]
    [⟨"clk", ["A1"], [], "resourceB"⟩] ["CMD"] (by decide)

/-- C10: over well-formed directives, the builder is total exactly when
every signal has a non-empty pins sequence: an input containing a signal
with empty pins makes the scalar branch read `pins[0]` and the builder
raises `IndexError`; when every pins sequence is non-empty the builder
returns a constraint file. -/
theorem C10_empty_pins_totality (named_sc : List SigCon) (named_pc : List String)
    (hwf : ∀ sc ∈ named_sc, ∀ c ∈ sc.others, wellFormed c = true) :
    ((∃ sc ∈ named_sc, sc.pins = []) →
      _build_lpf named_sc named_pc = .error .indexError)
    ∧ ((∀ sc ∈ named_sc, sc.pins ≠ []) →
      ∃ s, _build_lpf named_sc named_pc = .ok s) := by
  constructor
  · intro he
    have hj := lpfJoin_empty_pins named_sc hwf he
    simp [_build_lpf, hj]
  · intro hne
    exact buildLpf_ok named_sc named_pc fun sc hsc => ⟨hne sc hsc, hwf sc hsc⟩

/-- C10 witness: a signal with an empty pins sequence makes the builder
raise `IndexError`, and the same input with one pin succeeds. -/
theorem C10_empty_pins_totality_witness :
    _build_lpf [⟨"a", [], [], "r"⟩] [] = .error .indexError :=
  (C10_empty_pins_totality [⟨"a", [], [], "r"⟩] [] (by decide)).1
    ⟨⟨"a", [], [], "r"⟩, List.mem_cons_self _ _, rfl⟩

theorem catList_append (l1 l2 : List String) :
    catList (l1 ++ l2) = catList l1 ++ catList l2 := by
  induction l1 with
  | nil => simp [catList]
  | cons a rest ih => simp [catList, ih, String.append_assoc]

theorem foldlAppend {α : Type} (g : α → String) (l : List α) :
    ∀ h : String, l.foldl (fun acc s => acc ++ g s) h = h ++ catList (l.map g) := by
  induction l with
  | nil => intro h; simp [catList]
  | cons a rest ih =>
      intro h
      simp only [List.foldl_cons, List.map_cons, catList]
      rw [ih (h ++ g a)]
      simp [String.append_assoc]

theorem renderTmpl_fail (p : ScriptParams) (f : String) (t : List TmplItem) :
    renderTmpl p f (t ++ [TmplItem.fail_stmt, TmplItem.lit "\n"]) =
      renderTmpl p f t ++ f ++ "\n" := by
  simp [renderTmpl, catList_append, catList, itemText, String.append_assoc]

theorem applyCalls_fst (calls : List (String × ℚ)) :
    ∀ s : LatticeTrellisToolchain × List (String × String),
      (applyCalls s calls).1 = s.1 := by
  induction calls with
  | nil => intro s; rfl
  | cons c rest ih =>
      intro s
      cases s with
      | mk tc pf =>
          cases c with
          | mk clk period =>
              simpa [applyCalls, LatticeTrellisToolchain.add_period_constraint]
                using ih (tc, pf ++
                  [("FREQUENCY PORT \"{clk}\" " ++ toString (1 / period * 1000)
                    ++ " MHz;", clk)])

/-- C2, the claim as stated is false: after registering a period constraint
of 2 seconds for `"clk"`, the claim predicts the build frequency constraint
`1/2 * 1000 = 500` (the maximum over the registered signals), but the code's
build computes `max(self.freq_constraints.values(), default=0.0) = 0.0`,
because `add_period_constraint` never writes `self.freq_constraints`. -/
theorem C2_freq_registration_counterexample :
    buildFreqAfter [("clk", 2)] ≠ specFrequencyConstraint [("clk", 2)] := by
  have h1 : buildFreqAfter [("clk", 2)] = 0 := rfl
  have h2 : specFrequencyConstraint [("clk", 2)] = 500 := by
    simp [specFrequencyConstraint, lastWins, pyMax]
    norm_num
  rw [h1, h2]
  norm_num

/-- C2 (amended): the frequency constraint used by a build is always `0.0`,
whatever `add_period_constraint` calls preceded it: the calls only append
`FREQUENCY PORT` platform commands and leave the toolchain's
`freq_constraints` map empty, so `max(..., default=0.0)` always takes the
default. -/
theorem C2_freq_always_zero (calls : List (String × ℚ)) :
    buildFreqAfter calls = 0
    ∧ (applyCalls (LatticeTrellisToolchain.init, []) calls).1.freq_constraints = [] := by
  have h := applyCalls_fst calls (LatticeTrellisToolchain.init, [])
  constructor
  · unfold buildFreqAfter
    rw [h]
    rfl
  · rw [h]
    rfl

/-- C1, the claim as stated is false: with a failing external tool
(`scriptExit = 1`, `run = true`) the build raises `OSError` and the process
working directory at exit is the build directory `/home/user/build`, not the
entry directory `/home/user` — the code has no `try/finally` around the
`os.chdir` pair, so `os.chdir(cwd)` is never reached on the error path. -/
theorem C1_cwd_not_restored_counterexample :
    (LatticeTrellisToolchain.init.build
      ⟨"/home/user", "build", "lfe5u-25f-csfbga285", "top", [], [], true, false,
       false, 1, "linux", "rev"⟩).outcome = .error PyError.osError
    ∧ (LatticeTrellisToolchain.init.build
      ⟨"/home/user", "build", "lfe5u-25f-csfbga285", "top", [], [], true, false,
       false, 1, "linux", "rev"⟩).finalCwd ≠ "/home/user" :=
  ⟨rfl, by decide⟩

/-- C1 (amended): the working directory is restored only on the success
path.  When `build` returns normally the exit working directory equals the
(absolute) entry working directory, and when it raises — tool failure or any
intermediate error — the exit working directory is the build directory the
initial `os.chdir(build_dir)` moved into. -/
theorem C1_restore_only_on_success (tc : LatticeTrellisToolchain)
    (inp : BuildInput) (habs : isAbsPath inp.entryCwd = true) :
    ((tc.build inp).outcome = .ok () → (tc.build inp).finalCwd = inp.entryCwd)
    ∧ (∀ e, (tc.build inp).outcome = .error e →
        (tc.build inp).finalCwd = chdir inp.entryCwd inp.buildDir) := by
  unfold LatticeTrellisToolchain.build
  by_cases hv : inp.verilogFails
  · simp [hv]
  · cases hl : _build_lpf inp.named_sc inp.named_pc with
    | error e => simp [hv, hl]
    | ok s =>
        cases hd : deviceResolve inp.device with
        | error e => simp [hv, hl, hd]
        | ok ap =>
            by_cases hr : inp.run && inp.scriptExit != 0
            · simp [hv, hl, hd, hr]
            · simp [hv, hl, hd, hr, chdir, habs]

/-- C1 witness: a successful build (`run = false`) exits in the entry
directory; a failed one (tool exit status 1) exits in the build directory. -/
theorem C1_restore_only_on_success_witness :
    (LatticeTrellisToolchain.init.build
      ⟨"/home/user", "build", "lfe5u-25f-csfbga285", "top", [], [], false, false,
       false, 0, "linux", "rev"⟩).finalCwd = "/home/user"
    ∧ (LatticeTrellisToolchain.init.build
      ⟨"/home/user", "build", "lfe5u-25f-csfbga285", "top", [], [], true, false,
       false, 1, "linux", "rev"⟩).finalCwd = chdir "/home/user" "build" :=
  ⟨(C1_restore_only_on_success LatticeTrellisToolchain.init
      ⟨"/home/user", "build", "lfe5u-25f-csfbga285", "top", [], [], false, false,
       false, 0, "linux", "rev"⟩ (by decide)).1 rfl,
   (C1_restore_only_on_success LatticeTrellisToolchain.init
      ⟨"/home/user", "build", "lfe5u-25f-csfbga285", "top", [], [], true, false,
       false, 1, "linux", "rev"⟩ (by decide)).2 PyError.osError rfl⟩

/-- C3, the claim as stated is false: for the device
`"lfe5u-25f-xyz999"` (well-formed, known architecture, unknown package) the
build does fail with the unknown-package `ValueError`, but the constraint
file `top.lpf` has already been written when the failure is raised — device
resolution happens after the `.v`, `.lpf` and `.ys` writes in the source. -/
theorem C3_unknown_package_counterexample :
    (LatticeTrellisToolchain.init.build
      ⟨"/home/user", "build", "lfe5u-25f-xyz999", "top", [], [], true, false,
       false, 0, "linux", "rev"⟩).outcome = .error PyError.valueError
    ∧ "top.lpf" ∈ (LatticeTrellisToolchain.init.build
      ⟨"/home/user", "build", "lfe5u-25f-xyz999", "top", [], [], true, false,
       false, 0, "linux", "rev"⟩).writes :=
  ⟨rfl, by decide⟩

/-- C3 (amended): for every build whose device identifier splits into three
parts with a known architecture but a package matching no marker — and whose
earlier steps do not raise — the build fails with the unknown-package
`ValueError` only after writing exactly the verilog file, the constraint
file and the synthesis script; the build script is not written. -/
theorem C3_unknown_package_writes (tc : LatticeTrellisToolchain)
    (inp : BuildInput)
    (hv : inp.verilogFails = false)
    (hsc : ∀ sc ∈ inp.named_sc, sc.pins ≠ [] ∧ ∀ c ∈ sc.others, wellFormed c = true)
    (hdev : ∃ f s p, pySplit inp.device '-' = [f, s, p]
      ∧ (∃ a, archLookup f s = some a)
      ∧ nextpnr_ecp5_package p = .error .valueError) :
    (tc.build inp).outcome = .error PyError.valueError
    ∧ (tc.build inp).writes =
        [inp.build_name ++ ".v", inp.build_name ++ ".lpf",
         inp.build_name ++ ".ys"] := by
  obtain ⟨f, s, p, hsplit, ⟨a, ha⟩, hp⟩ := hdev
  have hd : deviceResolve inp.device = .error .valueError := by
    simp [deviceResolve, hsplit, ha, hp]
  obtain ⟨body, hl⟩ := buildLpf_ok inp.named_sc inp.named_pc hsc
  unfold LatticeTrellisToolchain.build
  simp [hv, hl, hd]

/-- C3 witness: the amended statement applied to the concrete device
`"lfe5u-25f-xyz999"`. -/
theorem C3_unknown_package_writes_witness :
    (LatticeTrellisToolchain.init.build
      ⟨"/home/user", "build", "lfe5u-25f-xyz999", "top", [], [], true, false,
       false, 0, "linux", "rev"⟩).writes = ["top.v", "top.lpf", "top.ys"] :=
  (C3_unknown_package_writes LatticeTrellisToolchain.init
    ⟨"/home/user", "build", "lfe5u-25f-xyz999", "top", [], [], true, false,
     false, 0, "linux", "rev"⟩ rfl (by decide)
    ⟨"lfe5u", "25f", "xyz999", by decide, ⟨"25k", rfl⟩, rfl⟩).2

/-- C8: the assembled script equals the dialect header followed by, for each
command template in order, its rendered line immediately followed by the
dialect's fail sentinel and a newline; the file name is
`"build_" + build_name` plus the dialect's extension; the batch dialect's
sentinel is `" || exit /b"`; the POSIX dialect's sentinel is empty and its
header contains `set -e`. -/
theorem C8_script_assembly (sysPlatform gitRevision : String)
    (build_template : List (List TmplItem)) (p : ScriptParams) :
    (_build_script sysPlatform gitRevision build_template p).2
      = scriptHeader sysPlatform gitRevision ++
        catList (build_template.map fun t =>
          renderTmpl p (failSentinel sysPlatform) t ++
            failSentinel sysPlatform ++ "\n")
    ∧ (_build_script sysPlatform gitRevision build_template p).1
      = "build_" ++ p.build_name ++
          (if isWinPlatform sysPlatform then ".bat" else ".sh")
    ∧ (isWinPlatform sysPlatform = true →
        failSentinel sysPlatform = " || exit /b")
    ∧ (isWinPlatform sysPlatform = false →
        failSentinel sysPlatform = ""
        ∧ ∃ a b, scriptHeader sysPlatform gitRevision = a ++ "set -e" ++ b) := by
  refine ⟨?_, rfl, ?_, ?_⟩
  · have hfun : (fun t => renderTmpl p (failSentinel sysPlatform)
        (t ++ [TmplItem.fail_stmt, TmplItem.lit "\n"]))
      = fun t => renderTmpl p (failSentinel sysPlatform) t ++
          failSentinel sysPlatform ++ "\n" :=
      funext fun t => renderTmpl_fail p (failSentinel sysPlatform) t
    simp only [_build_script]
    rw [foldlAppend, hfun]
  · intro hw
    simp [failSentinel, hw]
  · intro hw
    refine ⟨by simp [failSentinel, hw],
      "# Autogenerated by LiteX / git: " ++ gitRevision ++ "\n", "\n", ?_⟩
    simp only [scriptHeader, hw, Bool.false_eq_true, if_false]
    apply String.ext
    simp [String.data_append]

/-- C8 witness: the two dialects' sentinels and the POSIX header's
`set -e`, at concrete inputs. -/
theorem C8_script_assembly_witness :
    failSentinel "win32" = " || exit /b"
    ∧ failSentinel "linux" = ""
    ∧ ∃ a b, scriptHeader "linux" "rev0" = a ++ "set -e" ++ b := by
  obtain ⟨h1, h2, h3, h4⟩ :=
    C8_script_assembly "win32" "rev0" [] ⟨"t", "a", "p", "0", false⟩
  obtain ⟨g1, g2, g3, g4⟩ :=
    C8_script_assembly "linux" "rev0" [] ⟨"t", "a", "p", "0", false⟩
  exact ⟨h3 rfl, (g4 rfl).1, (g4 rfl).2⟩
